import Mathlib

/-!
# Canvas drawing core: shallow embedding

Shallow embedding of `src/canvas.rs`: a `Canvas` owning a Skia `Surface` and a
`Paint`, with GPU (Metal) and CPU constructors and the scaled raw-pixel draw
path (`draw_raw_rgb_scale`, `draw_image_scale`).

Machine-integer conventions:
* Rust `u32` values are `Nat` (callers stay below `2^32`);
  the cast `v as i32` is `toI32` (two's-complement reinterpretation).
* Rust `i32` values are `Int` (callers stay in `[-2^31, 2^31)`);
  the cast `v as usize` (64-bit) is `i32ToUsize`.
* Rust `i32` division truncates toward zero: `Int.div`.  Rust division by
  zero panics; a panic is modelled as an `Option.none` result.
* Overflowing `i32` addition is modelled with release-mode wrapping
  semantics, `wrap32`.

External collaborators (the Skia library, the Metal device API) are modelled
by their documented observable behaviour: a `Surface` records its pixel
dimensions, the last clear color and the list of issued draw commands; image
construction (`SkImage::MakeRasterData`) succeeds exactly when the dimensions
are positive and the supplied byte buffer covers `(h-1)*rowBytes + 4*w` bytes
with `rowBytes ≥ 4*w`; the raw pixel buffer is modelled by its byte length,
since no observable behaviour of this core depends on the bytes' values.
GPU device acquisition and GPU surface allocation are environment parameters
(`MetalEnv`), since their success depends on the platform.
-/

/-- Reinterpret a `u32` value (a `Nat` below `2^32`) as an `i32`, i.e. the
Rust cast `v as i32`. -/
def toI32 (n : Nat) : Int :=
  if n < 2 ^ 31 then (n : Int) else (n : Int) - 2 ^ 32

/-- Wrap an integer into the `i32` range `[-2^31, 2^31)`: release-mode
semantics of overflowing Rust `i32` arithmetic. -/
def wrap32 (n : Int) : Int :=
  (n + 2 ^ 31) % 2 ^ 32 - 2 ^ 31

/-- Reinterpret an `i32` value as a 64-bit `usize`, i.e. the Rust cast
`v as usize` in `Canvas::width`/`Canvas::height`. -/
def i32ToUsize (n : Int) : Nat :=
  (n % 2 ^ 64).toNat

/-- Skia color, as 32-bit ARGB. -/
abbrev Color := Nat

/-- `skia_safe::Color::BLACK`. -/
def Color.black : Color := 0xFF000000

/-- `skia_safe::Color::WHITE`. -/
def Color.white : Color := 0xFFFFFFFF

/-- `skia_safe::Color::RED`. -/
def Color.red : Color := 0xFFFF0000

/-- `skia_safe::BlendMode` (only the mode the source uses is distinguished). -/
inductive BlendMode where
  | srcOver
  | other
  deriving DecidableEq, Repr

/-- `skia_safe::FilterMode`. -/
inductive FilterMode where
  | linear
  | nearest
  deriving DecidableEq, Repr

/-- `skia_safe::MipmapMode`. -/
inductive MipmapMode where
  | none
  | nearest
  | linear
  deriving DecidableEq, Repr

/-- `skia_safe::ColorType` (the variants the source mentions). -/
inductive ColorType where
  | bgra8888
  | n32
  deriving DecidableEq, Repr

/-- `skia_safe::AlphaType` (the source only uses premultiplied). -/
inductive AlphaType where
  | premul
  deriving DecidableEq, Repr

/-- `skia_safe::Paint`: the fields the source configures.  The `f32` stroke
width set by the source is exactly `1.0`, modelled by its integer value. -/
structure Paint where
  color : Color
  strokeWidth : Int
  blend : BlendMode
  deriving DecidableEq, Repr

/-- The paint every constructor builds: `Paint::default()` then
`set_color(BLACK)`, `set_stroke_width(1.0)`, `set_blend_mode(SrcOver)`. -/
def Paint.configured : Paint :=
  { color := Color.black, strokeWidth := 1, blend := BlendMode.srcOver }

/-- `skia_safe::Image`: pixel dimensions plus the construction parameters
(row stride, color type, alpha type).  The decoded pixel content is an opaque
external resource; no observable behaviour of this core depends on it. -/
structure Image where
  width : Nat
  height : Nat
  rowBytes : Nat
  colorType : ColorType
  alphaType : AlphaType
  deriving DecidableEq, Repr

/-- `skia_safe::Image::from_raster_data`, modelled from Skia's documented
behaviour: construction succeeds iff both dimensions (as `i32`) are positive,
the row stride covers one row of 4-byte pixels, and the supplied buffer covers
the computed byte size `(h-1)*rowBytes + 4*w`.  The buffer is represented by
its byte length `dataLen`. -/
def Image.from_raster_data (w h : Int) (ct : ColorType) (al : AlphaType)
    (dataLen rowBytes : Nat) : Option Image :=
  if 0 < w ∧ 0 < h ∧ 4 * w.toNat ≤ rowBytes ∧
      (h.toNat - 1) * rowBytes + 4 * w.toNat ≤ dataLen then
    some { width := w.toNat, height := h.toNat, rowBytes := rowBytes,
           colorType := ct, alphaType := al }
  else
    none

/-- One issued scaled-image draw command
(`draw_image_rect_with_sampling_options`): source image dimensions,
destination rectangle (left, top, right, bottom, the integer values the
source computes before its `as f32` casts), sampling options and paint. -/
structure DrawCmd where
  imgWidth : Nat
  imgHeight : Nat
  rect : Int × Int × Int × Int
  filter : FilterMode
  mip : MipmapMode
  paint : Paint
  deriving DecidableEq, Repr

/-- `skia_safe::Surface`: pixel dimensions (as the `i32` Skia stores), the
last clear color, and the draw commands issued since that clear. -/
structure Surface where
  width : Int
  height : Int
  clearColor : Color
  draws : List DrawCmd
  deriving DecidableEq, Repr

/-- `skia_safe::Surface::new_raster_n32_premul`, modelled from Skia's
documented behaviour: succeeds iff both requested dimensions are positive. -/
def Surface.new_raster_n32_premul (w h : Int) : Option Surface :=
  if 0 < w ∧ 0 < h then
    some { width := w, height := h, clearColor := 0, draws := [] }
  else
    none

/-- `skia_safe::Surface::new_render_target` for the Metal path.  Whether GPU
surface allocation succeeds depends on the platform (memory, format support);
that outcome is the environment parameter `ok`. -/
def Surface.new_render_target (ok : Bool) (w h : Int) : Option Surface :=
  if ok then
    some { width := w, height := h, clearColor := 0, draws := [] }
  else
    none

/-- `canvas.clear(color)`: resets the surface content to the clear color. -/
def Surface.clear (s : Surface) (c : Color) : Surface :=
  { s with clearColor := c, draws := [] }

/-- The most recently issued draw command's destination rectangle. -/
def Surface.lastDrawRect (s : Surface) : Option (Int × Int × Int × Int) :=
  s.draws.getLast?.map DrawCmd.rect

/-- `skia_safe::gpu::mtl::BackendContext`: opaque handle wrapping the Metal
device and command queue. -/
inductive BackendContext where
  | mk
  deriving DecidableEq, Repr

/-- `skia_safe::gpu::DirectContext`: opaque GPU context handle. -/
inductive DirectContext where
  | mk
  deriving DecidableEq, Repr

/-- The `Canvas` struct of `src/canvas.rs` (macOS configuration, which has
the two optional GPU fields). -/
structure Canvas where
  surface : Surface
  paint : Paint
  _context : Option DirectContext
  _backend : Option BackendContext
  deriving DecidableEq, Repr

/-- Platform environment for `Canvas::new_metal`: whether
`metal::Device::system_default()` returns a device, and whether GPU surface
allocation succeeds. -/
structure MetalEnv where
  deviceAvailable : Bool
  surfaceOk : Bool
  deriving DecidableEq, Repr

/-- `Canvas::new_metal(width, height)`.  Returns `none` when no Metal device
is available or the render-target surface cannot be allocated (the source's
two early returns).  On success the surface is cleared to `RED` and both GPU
fields are populated.  The source unwraps `DirectContext::new_metal`, which
for a backend built from a live device and queue succeeds; it is modelled as
total. -/
def Canvas.new_metal (env : MetalEnv) (width height : Nat) : Option Canvas :=
  if env.deviceAvailable then
    match Surface.new_render_target env.surfaceOk (toI32 width) (toI32 height) with
    | none => none
    | some s =>
        some { surface := s.clear Color.red, paint := Paint.configured,
               _context := some DirectContext.mk,
               _backend := some BackendContext.mk }
  else
    none

/-- `Canvas::new(width, height)`: the CPU fallback.  The source calls
`Surface::new_raster_n32_premul((width as i32, height as i32))` and
`.expect("no surface!")`s the result; the panic on a failed surface is
modelled as `none`.  On success the surface is cleared to `WHITE` and no GPU
field is populated. -/
def Canvas.new (width height : Nat) : Option Canvas :=
  match Surface.new_raster_n32_premul (toI32 width) (toI32 height) with
  | none => none
  | some s =>
      some { surface := s.clear Color.white, paint := Paint.configured,
             _context := none, _backend := none }

/-- `Canvas::width`: `self.surface.width() as usize`. -/
def Canvas.width (c : Canvas) : Nat :=
  i32ToUsize c.surface.width

/-- `Canvas::height`: `self.surface.height() as usize`. -/
def Canvas.height (c : Canvas) : Nat :=
  i32ToUsize c.surface.height

/-- The destination-rectangle width `image.width() / scale as i32` computed
in `draw_image_scale_internal`: truncated `i32` division of the image width
by the reinterpreted scale. -/
def destWidth (img : Image) (scale : Nat) : Int :=
  Int.tdiv (img.width : Int) (toI32 scale)

/-- The destination-rectangle height `image.height() / scale as i32` computed
in `draw_image_scale_internal`. -/
def destHeight (img : Image) (scale : Nat) : Int :=
  Int.tdiv (img.height : Int) (toI32 scale)

/-- The destination rectangle `Rect::new(x, y, x + w/scale, y + h/scale)` of
`draw_image_scale_internal` (the integer values passed to the `as f32`
casts; the additions carry `i32` wrapping semantics). -/
def scaledRect (img : Image) (x y : Int) (scale : Nat) : Int × Int × Int × Int :=
  (x, y, wrap32 (x + destWidth img scale), wrap32 (y + destHeight img scale))

/-- The draw command `draw_image_scale_internal` issues: the whole source
image into `scaledRect`, linear filtering with nearest-mip sampling, the
canvas's paint. -/
def mkDrawCmd (p : Paint) (img : Image) (x y : Int) (scale : Nat) : DrawCmd :=
  { imgWidth := img.width, imgHeight := img.height,
    rect := scaledRect img x y scale,
    filter := FilterMode.linear, mip := MipmapMode.nearest, paint := p }

/-- Append one draw command to the canvas's surface. -/
def Canvas.pushDraw (c : Canvas) (cmd : DrawCmd) : Canvas :=
  { c with surface := { c.surface with draws := c.surface.draws ++ [cmd] } }

/-- `Canvas::draw_image_scale(image, x, y, scale)`.  The source divides
`image.width()` and `image.height()` by `scale as i32` with no zero guard:
when `scale as i32 = 0` the Rust division panics, modelled as `none`.
Otherwise the draw command is issued and the call returns `true`. -/
def Canvas.draw_image_scale (c : Canvas) (img : Image) (x y : Int)
    (scale : Nat) : Option (Canvas × Bool) :=
  if toI32 scale = 0 then
    none
  else
    some (c.pushDraw (mkDrawCmd c.paint img x y scale), true)

/-- The image-selection step of `draw_raw_rgb_scale_internal`: reuse the
caller-supplied image if present, otherwise wrap the raw buffer (modelled by
its byte length) with `Image::from_raster_data` at size `w×h`, row stride
`w * size_of::<u32>()`, format BGRA8888 premultiplied; with neither input the
result is `none`. -/
def buildImage (w h : Nat) (pixels : Option Nat) (image : Option Image) :
    Option Image :=
  match image with
  | some img => some img
  | none =>
      match pixels with
      | some len =>
          Image.from_raster_data (toI32 w) (toI32 h) ColorType.bgra8888
            AlphaType.premul len (w * 4)
      | none => none

/-- `Canvas::draw_raw_rgb_scale(x, y, w, h, scale, pixels, image)`.  When no
image can be obtained the source logs an error and returns `None` without
touching the surface; otherwise it invokes `draw_image_scale` (whose panic on
`scale as i32 = 0` propagates, outer `none`) and returns the image used. -/
def Canvas.draw_raw_rgb_scale (c : Canvas) (x y : Int) (w h scale : Nat)
    (pixels : Option Nat) (image : Option Image) :
    Option (Canvas × Option Image) :=
  match buildImage w h pixels image with
  | none => some (c, none)
  | some img =>
      match c.draw_image_scale img x y scale with
      | none => none
      | some (c2, _) => some (c2, some img)

/-- A concrete 10×10 BGRA premultiplied image (row stride 40), used as
explicit input for boundary cases. -/
def img10 : Image :=
  { width := 10, height := 10, rowBytes := 40,
    colorType := ColorType.bgra8888, alphaType := AlphaType.premul }

/-- A concrete 100×100 CPU-backed canvas, as built by `Canvas.new 100 100`:
explicit input for the draw-path claims. -/
def canvas100 : Canvas :=
  { surface := { width := 100, height := 100, clearColor := Color.white,
                 draws := [] },
    paint := Paint.configured, _context := none, _backend := none }

/-- A concrete 2×2 BGRA premultiplied image, as wrapped from a 16-byte
buffer (row stride 8). -/
def img2x2 : Image :=
  { width := 2, height := 2, rowBytes := 8,
    colorType := ColorType.bgra8888, alphaType := AlphaType.premul }

/-- The canvas produced by drawing `img2x2` at the origin with scale 1 on
`canvas100` (the result of one concrete `draw_raw_rgb_scale` call). -/
def canvasAfterFirst : Canvas :=
  canvas100.pushDraw (mkDrawCmd Paint.configured img2x2 0 0 1)

/-- The canvas produced by drawing `img10` at the origin with scale 2 on
`canvas100`. -/
def canvasAfterDraw : Canvas :=
  canvas100.pushDraw (mkDrawCmd Paint.configured img10 0 0 2)

/-- The concrete GPU-backed canvas `new_metal` builds at 100×100 when both
checkpoints succeed. -/
def canvasMetal : Canvas :=
  { surface := { width := 100, height := 100, clearColor := Color.red,
                 draws := [] },
    paint := Paint.configured,
    _context := some DirectContext.mk, _backend := some BackendContext.mk }

/-! ## Helper lemmas -/

theorem toI32_of_lt (n : Nat) (h : n < 2 ^ 31) : toI32 n = (n : Int) := by
  unfold toI32
  rw [if_pos h]

theorem toI32_pos (n : Nat) (h1 : 1 ≤ n) (h2 : n < 2 ^ 31) : 0 < toI32 n := by
  rw [toI32_of_lt n h2]
  exact_mod_cast h1

theorem wrap32_eq_self (n : Int) (h1 : -(2 ^ 31) ≤ n) (h2 : n < 2 ^ 31) :
    wrap32 n = n := by
  unfold wrap32
  omega

theorem i32ToUsize_natCast (w : Nat) (h : w < 2 ^ 64) :
    i32ToUsize (w : Int) = w := by
  unfold i32ToUsize
  omega

theorem tdiv_natCast (a b : Nat) :
    Int.tdiv (a : Int) (b : Int) = ((a / b : Nat) : Int) := rfl

/-- For a scale in `[1, 2^31)` the destination width is plain natural
division of the image width by the scale. -/
theorem destWidth_eq (img : Image) (s : Nat) (h : s < 2 ^ 31) :
    destWidth img s = ((img.width / s : Nat) : Int) := by
  rw [destWidth, toI32_of_lt s h, tdiv_natCast]

/-- For a scale in `[1, 2^31)` the destination height is plain natural
division of the image height by the scale. -/
theorem destHeight_eq (img : Image) (s : Nat) (h : s < 2 ^ 31) :
    destHeight img s = ((img.height / s : Nat) : Int) := by
  rw [destHeight, toI32_of_lt s h, tdiv_natCast]

theorem lastDrawRect_pushDraw (c : Canvas) (cmd : DrawCmd) :
    Surface.lastDrawRect (c.pushDraw cmd).surface = some cmd.rect := by
  simp [Canvas.pushDraw, Surface.lastDrawRect]

/-- Equation: with no obtainable image, `draw_raw_rgb_scale` returns `None`
and leaves the canvas untouched. -/
theorem draw_raw_eq_none_case (c : Canvas) (x y : Int) (w h s : Nat)
    (pixels : Option Nat) (image : Option Image)
    (hb : buildImage w h pixels image = none) :
    c.draw_raw_rgb_scale x y w h s pixels image = some (c, none) := by
  unfold Canvas.draw_raw_rgb_scale
  rw [hb]

/-- Equation: with an obtained image and a non-zero reinterpreted scale,
`draw_raw_rgb_scale` issues the draw command and returns the image. -/
theorem draw_raw_eq_some_case (c : Canvas) (x y : Int) (w h s : Nat)
    (pixels : Option Nat) (image : Option Image) (img : Image)
    (hb : buildImage w h pixels image = some img) (hz : toI32 s ≠ 0) :
    c.draw_raw_rgb_scale x y w h s pixels image =
      some (c.pushDraw (mkDrawCmd c.paint img x y s), some img) := by
  simp [Canvas.draw_raw_rgb_scale, Canvas.draw_image_scale, hb, hz]

/-- Equation: with an obtained image but `scale as i32 = 0`, the inner
`draw_image_scale` division panic propagates. -/
theorem draw_raw_eq_panic_case (c : Canvas) (x y : Int) (w h s : Nat)
    (pixels : Option Nat) (image : Option Image) (img : Image)
    (hb : buildImage w h pixels image = some img) (hz : toI32 s = 0) :
    c.draw_raw_rgb_scale x y w h s pixels image = none := by
  simp [Canvas.draw_raw_rgb_scale, Canvas.draw_image_scale, hb, hz]

/-- Inversion for a returning `draw_image_scale` call. -/
theorem draw_image_scale_inv (c : Canvas) (img : Image) (x y : Int) (s : Nat)
    (c2 : Canvas) (b : Bool)
    (hcall : c.draw_image_scale img x y s = some (c2, b)) :
    toI32 s ≠ 0 ∧ c2 = c.pushDraw (mkDrawCmd c.paint img x y s) ∧ b = true := by
  by_cases hz : toI32 s = 0
  · unfold Canvas.draw_image_scale at hcall
    rw [if_pos hz] at hcall
    exact absurd hcall (by simp)
  · unfold Canvas.draw_image_scale at hcall
    rw [if_neg hz] at hcall
    injection hcall with hpair
    injection hpair with hc hb
    exact ⟨hz, hc.symm, hb.symm⟩

/-- Inversion for a returning `draw_raw_rgb_scale` call: either no image was
obtained (no-op), or the obtained image was drawn and returned. -/
theorem draw_raw_rgb_scale_inv (c : Canvas) (x y : Int) (w h s : Nat)
    (pixels : Option Nat) (image : Option Image) (c2 : Canvas)
    (res : Option Image)
    (hcall : c.draw_raw_rgb_scale x y w h s pixels image = some (c2, res)) :
    (c2 = c ∧ res = none ∧ buildImage w h pixels image = none) ∨
      (∃ img, buildImage w h pixels image = some img ∧ toI32 s ≠ 0 ∧
        c2 = c.pushDraw (mkDrawCmd c.paint img x y s) ∧ res = some img) := by
  cases hb : buildImage w h pixels image with
  | none =>
      left
      rw [draw_raw_eq_none_case c x y w h s pixels image hb] at hcall
      injection hcall with hpair
      injection hpair with hc hres
      exact ⟨hc.symm, hres.symm, rfl⟩
  | some img =>
      right
      by_cases hz : toI32 s = 0
      · rw [draw_raw_eq_panic_case c x y w h s pixels image img hb hz] at hcall
        exact absurd hcall (by simp)
      · rw [draw_raw_eq_some_case c x y w h s pixels image img hb hz] at hcall
        injection hcall with hpair
        injection hpair with hc hres
        exact ⟨img, rfl, hz, hc.symm, hres.symm⟩

/-! ## Claim theorems -/

/-- C1 (code_bug evidence): for every canvas, image and coordinates, calling
`draw_image_scale` with `scale = 0` reaches the unguarded integer division
`image.width() / scale as i32` and panics with a division fault (modelled as
`none`); the scale is never rejected with a reported error beforehand. -/
theorem draw_image_scale_zero_scale_faults (c : Canvas) (img : Image)
    (x y : Int) : c.draw_image_scale img x y 0 = none := by
  have h : toI32 0 = 0 := by decide
  simp [Canvas.draw_image_scale, h]

/-- C2 (counterexample): the claim quantifies over every positive `u32`
width, but at `width = 2^31 > 0` the cast `width as i32` is negative, the
raster surface cannot be created, and the `.expect("no surface!")` panics
(modelled as `none`) — `new` does not succeed. -/
theorem new_panics_at_two_pow_31 : Canvas.new (2 ^ 31) 1 = none := by decide

/-- C2 (amended): for every width and height in `(0, 2^31)` — the range in
which the `u32 → i32` casts are value-preserving — the CPU constructor
succeeds and the returned canvas reports the requested dimensions. -/
theorem new_succeeds_and_reports_dimensions (w h : Nat)
    (hw0 : 0 < w) (hw : w < 2 ^ 31) (hh0 : 0 < h) (hh : h < 2 ^ 31) :
    ∃ c, Canvas.new w h = some c ∧ c.width = w ∧ c.height = h := by
  have hw' : (0 : Int) < (w : Int) := by exact_mod_cast hw0
  have hh' : (0 : Int) < (h : Int) := by exact_mod_cast hh0
  unfold Canvas.new Surface.new_raster_n32_premul
  rw [toI32_of_lt w hw, toI32_of_lt h hh]
  rw [if_pos ⟨hw', hh'⟩]
  refine ⟨_, rfl, ?_, ?_⟩
  · show i32ToUsize (w : Int) = w
    exact i32ToUsize_natCast w (by omega)
  · show i32ToUsize (h : Int) = h
    exact i32ToUsize_natCast h (by omega)

/-- C2 (witness): the amended constructor theorem at `width = 5`,
`height = 7`. -/
theorem new_succeeds_witness :
    (0 < 5 ∧ 5 < 2 ^ 31 ∧ 0 < 7 ∧ 7 < 2 ^ 31) ∧
      ∃ c, Canvas.new 5 7 = some c ∧ c.width = 5 ∧ c.height = 7 :=
  ⟨⟨by decide, by decide, by decide, by decide⟩,
   new_succeeds_and_reports_dimensions 5 7 (by decide) (by decide) (by decide)
     (by decide)⟩

/-- C6 (counterexample): the destination size does not strictly decrease
with the scale: a 10×10 image yields the same destination width and height
at scale 11 and scale 12 (both 0). -/
theorem dest_size_not_strictly_decreasing :
    11 < 12 ∧ destWidth img10 11 = destWidth img10 12 ∧
      destHeight img10 11 = destHeight img10 12 := by decide

/-- C6 (amended): for fixed image dimensions the destination rectangle's
width and height weakly decrease (are antitone) as the scale increases over
`[1, 2^31)`; and the explicit boundary case holds: an image of width 10 at
scale 11 yields destination width 0. -/
theorem dest_size_antitone_in_scale :
    (∀ (img : Image) (s t : Nat), 1 ≤ s → s ≤ t → t < 2 ^ 31 →
        destWidth img t ≤ destWidth img s ∧
          destHeight img t ≤ destHeight img s) ∧
      destWidth img10 11 = 0 := by
  constructor
  · intro img s t h1 h2 h3
    have hs : s < 2 ^ 31 := lt_of_le_of_lt h2 h3
    rw [destWidth_eq img s hs, destWidth_eq img t h3,
      destHeight_eq img s hs, destHeight_eq img t h3]
    constructor
    · exact_mod_cast Nat.div_le_div_left h2 h1
    · exact_mod_cast Nat.div_le_div_left h2 h1
  · decide

/-- C6 (witness): the antitone theorem at the concrete image `img10` and
scales 3 ≤ 7. -/
theorem dest_size_antitone_witness :
    destWidth img10 7 ≤ destWidth img10 3 ∧
      destHeight img10 7 ≤ destHeight img10 3 :=
  dest_size_antitone_in_scale.1 img10 3 7 (by decide) (by decide) (by decide)

/-- C3 (counterexample): the claim quantifies over every `u32` scale ≥ 1,
but at `scale = 4294967295` the cast `scale as i32` is `-1`, so a 10-wide
image yields a destination rectangle `(0, 0, -10, -10)` whose horizontal
extent is `-10`, not the claimed `10 / 4294967295 = 0`. -/
theorem draw_image_scale_wrong_rect_at_huge_scale :
    (canvas100.draw_image_scale img10 0 0 4294967295).map
        (fun p => Surface.lastDrawRect p.1.surface) = some (some (0, 0, -10, -10)) ∧
      (img10.width / 4294967295 : Nat) = 0 ∧
      (-10 : Int) ≠ (0 : Int) + ((img10.width / 4294967295 : Nat) : Int) := by
  decide

/-- C3 (amended): for every image, coordinates and scale with
`1 ≤ scale < 2^31` (the range over which `scale as i32` preserves the value)
and destination corners within `i32` range, `draw_image_scale` issues a draw
command whose destination rectangle has top-left `(x, y)` and size
`(image.width / scale, image.height / scale)` by integer division, and
returns `true`. -/
theorem draw_image_scale_rect_and_success (c : Canvas) (img : Image)
    (x y : Int) (s : Nat) (hs1 : 1 ≤ s) (hs2 : s < 2 ^ 31)
    (hx1 : -(2 ^ 31) ≤ x) (hx2 : x + ((img.width / s : Nat) : Int) < 2 ^ 31)
    (hy1 : -(2 ^ 31) ≤ y) (hy2 : y + ((img.height / s : Nat) : Int) < 2 ^ 31) :
    ∃ c2, c.draw_image_scale img x y s = some (c2, true) ∧
      Surface.lastDrawRect c2.surface =
        some (x, y, x + ((img.width / s : Nat) : Int),
          y + ((img.height / s : Nat) : Int)) := by
  have hz : toI32 s ≠ 0 := ne_of_gt (toI32_pos s hs1 hs2)
  refine ⟨c.pushDraw (mkDrawCmd c.paint img x y s), ?_, ?_⟩
  · unfold Canvas.draw_image_scale
    rw [if_neg hz]
  · rw [lastDrawRect_pushDraw]
    unfold mkDrawCmd scaledRect
    rw [destWidth_eq img s hs2, destHeight_eq img s hs2]
    have hdw : (0 : Int) ≤ ((img.width / s : Nat) : Int) := Int.natCast_nonneg _
    have hdh : (0 : Int) ≤ ((img.height / s : Nat) : Int) := Int.natCast_nonneg _
    rw [wrap32_eq_self _ (by omega) hx2, wrap32_eq_self _ (by omega) hy2]

/-- C3 (witness): the amended rectangle theorem at `canvas100`, the 10×10
image, `x = 3`, `y = 4`, `scale = 2`. -/
theorem draw_image_scale_rect_witness :
    ∃ c2, canvas100.draw_image_scale img10 3 4 2 = some (c2, true) ∧
      Surface.lastDrawRect c2.surface =
        some (3, 4, 3 + ((img10.width / 2 : Nat) : Int),
          4 + ((img10.height / 2 : Nat) : Int)) :=
  draw_image_scale_rect_and_success canvas100 img10 3 4 2 (by decide)
    (by decide) (by decide) (by decide) (by decide) (by decide)

/-- C4: whenever no image can be obtained — neither a raw buffer nor an
existing image was supplied, or wrapping the supplied buffer failed
(`buildImage` is `none`) — `draw_raw_rgb_scale` skips the draw, returns no
image, and leaves the canvas (surface, paint, GPU fields) unmodified.  The
accompanying error report goes to the external tracing sink, outside this
embedding. -/
theorem draw_raw_rgb_scale_failure_noop (c : Canvas) (x y : Int)
    (w h s : Nat) (pixels : Option Nat)
    (hfail : buildImage w h pixels none = none) :
    c.draw_raw_rgb_scale x y w h s pixels none = some (c, none) :=
  draw_raw_eq_none_case c x y w h s pixels none hfail

/-- C4 (witness): the no-op theorem at a 2×2 request whose 3-byte buffer is
too small to wrap (`2*2*4 = 16` bytes needed). -/
theorem draw_raw_rgb_scale_failure_witness :
    buildImage 2 2 (some 3) none = none ∧
      canvas100.draw_raw_rgb_scale 0 0 2 2 1 (some 3) none =
        some (canvas100, none) :=
  ⟨by decide,
   draw_raw_rgb_scale_failure_noop canvas100 0 0 2 2 1 (some 3) (by decide)⟩

/-- C5: if a `draw_raw_rgb_scale` call returned an image, then a second call
that supplies that image (and no raw buffer) reuses it without decoding,
returns the very same image, and issues a draw command with the identical
destination rectangle as the first call. -/
theorem draw_raw_rgb_scale_reuse_idempotent (c c1 : Canvas) (x y : Int)
    (w h s : Nat) (pixels : Option Nat) (img0 : Option Image) (img1 : Image)
    (hcall : c.draw_raw_rgb_scale x y w h s pixels img0 = some (c1, some img1)) :
    ∃ c2, c1.draw_raw_rgb_scale x y w h s none (some img1) =
        some (c2, some img1) ∧
      Surface.lastDrawRect c2.surface = Surface.lastDrawRect c1.surface := by
  rcases draw_raw_rgb_scale_inv c x y w h s pixels img0 c1 (some img1) hcall with
    ⟨-, hres, -⟩ | ⟨img, hb, hz, rfl, hres⟩
  · exact absurd hres (by simp)
  · obtain rfl : img = img1 := by
      injection hres with hres2
      exact hres2.symm
    refine ⟨_, draw_raw_eq_some_case _ x y w h s none (some img) img rfl hz, ?_⟩
    rw [lastDrawRect_pushDraw, lastDrawRect_pushDraw]
    rfl

/-- C5 (witness): the reuse theorem applied after a concrete first call that
wrapped a 16-byte 2×2 buffer on `canvas100`. -/
theorem draw_raw_rgb_scale_reuse_witness :
    ∃ c2, canvasAfterFirst.draw_raw_rgb_scale 0 0 2 2 1 none (some img2x2) =
        some (c2, some img2x2) ∧
      Surface.lastDrawRect c2.surface =
        Surface.lastDrawRect canvasAfterFirst.surface :=
  draw_raw_rgb_scale_reuse_idempotent canvas100 canvasAfterFirst 0 0 2 2 1
    (some 16) none img2x2 (by decide)

/-- C7: the GPU fields are populated iff the canvas came from a successful
GPU construction: the CPU constructor populates neither field, a successful
`new_metal` populates both, and neither draw operation changes either field
(no operation transitions a canvas between backing modes). -/
theorem gpu_fields_iff_gpu_construction :
    (∀ (w h : Nat) (c : Canvas), Canvas.new w h = some c →
        c._context = none ∧ c._backend = none) ∧
      (∀ (env : MetalEnv) (w h : Nat) (c : Canvas),
        Canvas.new_metal env w h = some c →
          c._context = some DirectContext.mk ∧
            c._backend = some BackendContext.mk) ∧
      (∀ (c : Canvas) (img : Image) (x y : Int) (s : Nat) (c2 : Canvas)
          (b : Bool), c.draw_image_scale img x y s = some (c2, b) →
          c2._context = c._context ∧ c2._backend = c._backend) ∧
      (∀ (c : Canvas) (x y : Int) (w h s : Nat) (pixels : Option Nat)
          (image : Option Image) (c2 : Canvas) (res : Option Image),
          c.draw_raw_rgb_scale x y w h s pixels image = some (c2, res) →
          c2._context = c._context ∧ c2._backend = c._backend) := by
  refine ⟨?_, ?_, ?_, ?_⟩
  · intro w h c hc
    unfold Canvas.new at hc
    cases hs : Surface.new_raster_n32_premul (toI32 w) (toI32 h) with
    | none => rw [hs] at hc; exact absurd hc (by simp)
    | some s =>
        rw [hs] at hc
        injection hc with h1
        rw [← h1]
        exact ⟨rfl, rfl⟩
  · intro env w h c hc
    unfold Canvas.new_metal at hc
    by_cases hd : env.deviceAvailable = true
    · rw [if_pos hd] at hc
      cases hs : Surface.new_render_target env.surfaceOk (toI32 w) (toI32 h) with
      | none => rw [hs] at hc; exact absurd hc (by simp)
      | some s =>
          rw [hs] at hc
          injection hc with h1
          rw [← h1]
          exact ⟨rfl, rfl⟩
    · rw [if_neg hd] at hc
      exact absurd hc (by simp)
  · intro c img x y s c2 b hcall
    obtain ⟨-, rfl, -⟩ := draw_image_scale_inv c img x y s c2 b hcall
    exact ⟨rfl, rfl⟩
  · intro c x y w h s pixels image c2 res hcall
    rcases draw_raw_rgb_scale_inv c x y w h s pixels image c2 res hcall with
      ⟨rfl, -, -⟩ | ⟨img, -, -, rfl, -⟩
    · exact ⟨rfl, rfl⟩
    · exact ⟨rfl, rfl⟩

/-- C7 (witness): the invariant at a concrete CPU construction, a concrete
successful GPU construction, and a concrete draw. -/
theorem gpu_fields_witness :
    (canvas100._context = none ∧ canvas100._backend = none) ∧
      (canvasMetal._context = some DirectContext.mk ∧
        canvasMetal._backend = some BackendContext.mk) ∧
      (canvasAfterDraw._context = canvas100._context ∧
        canvasAfterDraw._backend = canvas100._backend) :=
  ⟨gpu_fields_iff_gpu_construction.1 100 100 canvas100 (by decide),
   gpu_fields_iff_gpu_construction.2.1 ⟨true, true⟩ 100 100 canvasMetal
     (by decide),
   gpu_fields_iff_gpu_construction.2.2.1 canvas100 img10 0 0 2 canvasAfterDraw
     true (by decide)⟩

/-- C8: `new_metal` is a total function into `Option Canvas` (it returns a
value rather than raising or crashing), returning `none` exactly when one of
its two failure checkpoints fails — no Metal device available, or GPU
surface allocation failed; and any canvas it does return is fully
initialized (surface cleared to the diagnostic red, configured paint, both
GPU fields populated), so no partially-initialized canvas is observable. -/
theorem new_metal_none_iff_checkpoint_failure (env : MetalEnv) (w h : Nat) :
    (Canvas.new_metal env w h = none ↔
        env.deviceAvailable = false ∨ env.surfaceOk = false) ∧
      ∀ c, Canvas.new_metal env w h = some c →
        c.surface.clearColor = Color.red ∧ c.paint = Paint.configured ∧
          c._context = some DirectContext.mk ∧
          c._backend = some BackendContext.mk := by
  obtain ⟨dev, sok⟩ := env
  cases dev <;> cases sok <;>
    simp [Canvas.new_metal, Surface.new_render_target, Surface.clear]

/-- C8 (witness): the checkpoint theorem at a device-less environment and at
a fully successful environment. -/
theorem new_metal_checkpoint_witness :
    (Canvas.new_metal ⟨false, true⟩ 100 100 = none ↔
        (⟨false, true⟩ : MetalEnv).deviceAvailable = false ∨
          (⟨false, true⟩ : MetalEnv).surfaceOk = false) ∧
      (canvasMetal.surface.clearColor = Color.red ∧
        canvasMetal.paint = Paint.configured ∧
        canvasMetal._context = some DirectContext.mk ∧
        canvasMetal._backend = some BackendContext.mk) :=
  ⟨(new_metal_none_iff_checkpoint_failure ⟨false, true⟩ 100 100).1,
   (new_metal_none_iff_checkpoint_failure ⟨true, true⟩ 100 100).2 canvasMetal
     (by decide)⟩

/-- C9 (counterexample): the claim quantifies over every `u32` width, but at
`w = 2^31` with a buffer of exactly `2^31 * 1 * 4` bytes the cast `w as i32`
is negative, image construction fails, and the call returns no image at all
(rather than an image of width `w`). -/
theorem draw_raw_rgb_scale_no_image_at_two_pow_31 :
    canvas100.draw_raw_rgb_scale 0 0 (2 ^ 31) 1 1 (some (2 ^ 31 * 1 * 4)) none =
      some (canvas100, none) := by decide

/-- C9 (amended): for widths and heights in `(0, 2^31)` — the range over
which the `u32 → i32` casts preserve the value — wrapping a buffer of
exactly `w*h*4` bytes with no existing image at scale 1 returns an image of
width `w` and height `h`, built with row stride `w*4` in BGRA8888
premultiplied format. -/
theorem draw_raw_rgb_scale_wraps_buffer (c : Canvas) (x y : Int) (w h : Nat)
    (hw0 : 0 < w) (hw : w < 2 ^ 31) (hh0 : 0 < h) (hh : h < 2 ^ 31) :
    ∃ c2 img, c.draw_raw_rgb_scale x y w h 1 (some (w * h * 4)) none =
        some (c2, some img) ∧
      img.width = w ∧ img.height = h ∧ img.rowBytes = w * 4 ∧
        img.colorType = ColorType.bgra8888 ∧
        img.alphaType = AlphaType.premul := by
  have hsize : (h - 1) * (w * 4) + 4 * w ≤ w * h * 4 := by
    obtain ⟨n, rfl⟩ : ∃ n, h = n + 1 := ⟨h - 1, by omega⟩
    have hn : n + 1 - 1 = n := rfl
    rw [hn]
    apply Nat.le_of_eq
    ring
  have hb : buildImage w h (some (w * h * 4)) none =
      some { width := w, height := h, rowBytes := w * 4,
             colorType := ColorType.bgra8888,
             alphaType := AlphaType.premul } := by
    unfold buildImage Image.from_raster_data
    rw [toI32_of_lt w hw, toI32_of_lt h hh]
    simp only [Int.toNat_natCast]
    have hguard : (0 : Int) < (w : Int) ∧ (0 : Int) < (h : Int) ∧
        4 * w ≤ w * 4 ∧ (h - 1) * (w * 4) + 4 * w ≤ w * h * 4 :=
      ⟨by exact_mod_cast hw0, by exact_mod_cast hh0, by omega, hsize⟩
    rw [if_pos hguard]
  have hz : toI32 1 ≠ 0 := by decide
  exact ⟨_, _, draw_raw_eq_some_case c x y w h 1 (some (w * h * 4)) none _ hb hz,
    rfl, rfl, rfl, rfl, rfl⟩

/-- C9 (witness): the buffer-wrapping theorem at a 2×2 buffer of 16 bytes. -/
theorem draw_raw_rgb_scale_wraps_buffer_witness :
    ∃ c2 img, canvas100.draw_raw_rgb_scale 5 6 2 2 1 (some (2 * 2 * 4)) none =
        some (c2, some img) ∧
      img.width = 2 ∧ img.height = 2 ∧ img.rowBytes = 2 * 4 ∧
        img.colorType = ColorType.bgra8888 ∧
        img.alphaType = AlphaType.premul :=
  draw_raw_rgb_scale_wraps_buffer canvas100 5 6 2 2 (by decide) (by decide)
    (by decide) (by decide)

/-- C10: no returning draw operation modifies the canvas's paint or surface
dimensions: after `draw_image_scale` or `draw_raw_rgb_scale`, the paint and
the reported `width`/`height` equal their values before the call. -/
theorem draw_ops_preserve_paint_and_dimensions :
    (∀ (c : Canvas) (img : Image) (x y : Int) (s : Nat) (c2 : Canvas)
        (b : Bool), c.draw_image_scale img x y s = some (c2, b) →
        c2.paint = c.paint ∧ c2.width = c.width ∧ c2.height = c.height) ∧
      (∀ (c : Canvas) (x y : Int) (w h s : Nat) (pixels : Option Nat)
          (image : Option Image) (c2 : Canvas) (res : Option Image),
          c.draw_raw_rgb_scale x y w h s pixels image = some (c2, res) →
          c2.paint = c.paint ∧ c2.width = c.width ∧ c2.height = c.height) := by
  constructor
  · intro c img x y s c2 b hcall
    obtain ⟨-, rfl, -⟩ := draw_image_scale_inv c img x y s c2 b hcall
    exact ⟨rfl, rfl, rfl⟩
  · intro c x y w h s pixels image c2 res hcall
    rcases draw_raw_rgb_scale_inv c x y w h s pixels image c2 res hcall with
      ⟨rfl, -, -⟩ | ⟨img, -, -, rfl, -⟩
    · exact ⟨rfl, rfl, rfl⟩
    · exact ⟨rfl, rfl, rfl⟩

/-- C10 (witness): paint and dimension preservation at a concrete
`draw_image_scale` call and a concrete `draw_raw_rgb_scale` call. -/
theorem draw_ops_preserve_witness :
    (canvasAfterDraw.paint = canvas100.paint ∧
        canvasAfterDraw.width = canvas100.width ∧
        canvasAfterDraw.height = canvas100.height) ∧
      (canvasAfterFirst.paint = canvas100.paint ∧
        canvasAfterFirst.width = canvas100.width ∧
        canvasAfterFirst.height = canvas100.height) :=
  ⟨draw_ops_preserve_paint_and_dimensions.1 canvas100 img10 0 0 2
      canvasAfterDraw true (by decide),
   draw_ops_preserve_paint_and_dimensions.2 canvas100 0 0 2 2 1 (some 16) none
      canvasAfterFirst (some img2x2) (by decide)⟩
